import Mathlib

/-!
Verification development for the volume-tracked liquid-transfer engine of
AdhE_assay_protocol.py: well addressing, the per-well volume ledger and its
conservation primitive adjust_well_volume, the ledger effect of
serial_dilution, the distribute batching of custom_transfer, the well edge
offset computation get_well_edge_offset, and the offset_dispense motion
sequence.

Volumes are modelled as exact rationals: on the modelled paths the source only
adds, subtracts, multiplies and divides decimal literals, and the claims are
about the exact formulas.  Python exceptions are fatal to a run, so fallible
functions are modelled in the Except monad; in-place dictionary updates that
precede a fatal exception die with the aborted run and are discarded together
with it.  The Python volume dictionaries are keyed by well-name strings; within
a plate those names are in bijection with (row index, column index), so the
ledger here is keyed by plate name, row index and column index.
-/

namespace AdhE

/-- Error outcomes of the engine.  The AssertionError and RuntimeError sites of
the source are named after the taxonomy of the specification.  nameError models
a Python NameError or UnboundLocalError on the given variable name.
unsupportedPlateGeometry appears in the taxonomy of the specification but is
never raised by the source; it is kept only so that statements can compare the
actual outcome against it. -/
inductive Err where
  | invalidGeometry : Err
  | invalidOffsetDirection : Err
  | volumeOutOfRange : Err
  | invalidMultichannelAlignment : Err
  | unsupportedPlateGeometry : Err
  | nameError : String → Err
  | valueError : Err
deriving DecidableEq

/-- Variable name in the 16-row source assert message; the source never assigns
this variable, so a failed assert raises NameError on it. -/
def varSourceRow : String := "source_row"

/-- Variable name in the 16-row destination assert message; never assigned. -/
def varDestinationRow : String := "destination_row"

/-- Local list variable of adjust_well_volume left unassigned when no
source-side row-count branch fires. -/
def varSourceWellList : String := "source_well_list"

/-- Local list variable of adjust_well_volume left unassigned when no
destination-side row-count branch fires. -/
def varDestinationWellList : String := "destination_well_list"

/-- Local of get_well_edge_offset left unassigned when the tip-profile lookup
raises KeyError (which is caught and only printed). -/
def varPipetteTipWidth : String := "PIPETTE_TIP_WIDTH"

/-- Loop index of serial_dilution, unbound when the transfer loop runs zero
times. -/
def varLoopIndex : String := "i"

/-- Substring that identifies the fixed-trash labware in the source:
the code tests whether the string Fixed Trash occurs in str(destination.parent). -/
def trashMarker : String := "Fixed Trash"

/-- A plate: its str() name (the key of the all_volumes dictionary), its row
count and its column count. -/
structure Plate where
  name : String
  rows : Nat
  cols : Nat
deriving DecidableEq

/-- A well reference: the plate it belongs to plus zero-based row and column
indices (well name B3 has row 1, col 2). -/
structure WellRef where
  plate : Plate
  row : Nat
  col : Nat
deriving DecidableEq

/-- The volume ledger all_volumes: plate name, row index and column index to
tracked volume in microliters. -/
def Ledger : Type := String → Nat → Nat → ℚ

/-- The ledger key of a well. -/
def key (w : WellRef) : String × Nat × Nat := (w.plate.name, w.row, w.col)

/-- The tracked volume of a well in a ledger. -/
def atWell (L : Ledger) (w : WellRef) : ℚ := L w.plate.name w.row w.col

/-- Boolean infix test on lists, modelling the Python operator in on strings. -/
def infixOf [BEq α] (needle : List α) : List α → Bool
  | [] => needle.isEmpty
  | a :: rest => needle.isPrefixOf (a :: rest) || infixOf needle rest

/-- The trash test of adjust_well_volume: Fixed Trash occurs in the name of the
parent labware of the destination. -/
def isTrash (w : WellRef) : Bool := infixOf trashMarker.toList w.plate.name.toList

/-- Row letter of a zero-based row index, as produced by well_name_from_indices
and consumed by the well_name[0] checks: chr(row + 65). -/
def rowLetter (r : Nat) : Char := Char.ofNat (r + 65)

/-- All wells of one column of a plate, top row first: the value of
plate.columns_by_name()[column]. -/
def columnWells (p : Plate) (c : Nat) : List (Nat × Nat) :=
  (List.range p.rows).map (fun r => (r, c))

/-- Python slice l[::2]: every second element starting with the first. -/
def everySecond {α : Type} : List α → List α
  | [] => []
  | [a] => [a]
  | a :: _ :: rest => a :: everySecond rest

/-- Add dv to the tracked volume of one well of the ledger. -/
def updateVol (L : Ledger) (pn : String) (r c : Nat) (dv : ℚ) : Ledger :=
  fun q r2 c2 => if q = pn ∧ r2 = r ∧ c2 = c then L q r2 c2 + dv else L q r2 c2

/-- Add dv to the tracked volume of every well in the list (the subtract and
add loops at the end of adjust_well_volume). -/
def addToWells (L : Ledger) (pn : String) (ws : List (Nat × Nat)) (dv : ℚ) : Ledger :=
  ws.foldl (fun acc rc => updateVol acc pn rc.1 rc.2 dv) L

/-- The per-side row-count branching of the num_channels == 8 case of
adjust_well_volume.  The source uses parallel if blocks on the row count with
no default, so a row count other than 1, 8 or 16 assigns nothing, modelled as
ok none.  A 1-row plate addresses the single well with channel multiplier 8.
An 8-row plate must start at row letter A (assert with a well-formed message,
AssertionError, alias invalidMultichannelAlignment) and addresses the whole
column with multiplier 1.  A 16-row plate must start at row letter A or B, but
the assert message interpolates a never-assigned variable (source_row on the
source side, destination_row on the destination side), so a failed check
raises NameError on that variable instead of the AssertionError; on success it
addresses every second well of the column from the start row, multiplier 1. -/
def channelFanout8 (rows : Nat) (p : Plate) (row col : Nat) (misVar : String) :
    Except Err (Option (ℚ × List (Nat × Nat))) :=
  if rows = 1 then Except.ok (some (8, [(row, col)]))
  else if rows = 8 then
    if rowLetter row = 'A' then Except.ok (some (1, columnWells p col))
    else Except.error Err.invalidMultichannelAlignment
  else if rows = 16 then
    if rowLetter row = 'A' ∨ rowLetter row = 'B' then
      Except.ok (some (1, everySecond ((columnWells p col).drop
        (if rowLetter row = 'A' then 0 else 1))))
    else Except.error (Err.nameError misVar)
  else Except.ok none

/-- The ledger conservation primitive adjust_well_volume(transfer_volume,
source, destination, num_channels).  For one channel it subtracts the volume
from the source well and, unless the destination parent labware is the fixed
trash, adds it to the destination well.  For eight channels it derives the
affected well lists and channel multipliers per side via the row-count
branching; the destination side of a trash destination is treated as a plate
with zero rows (the source sets destination_plate_rows = 0).  If the source
side assigned no well list the subtract loop raises UnboundLocalError on
source_well_list; if the destination side assigned none and the destination is
not the trash, the add loop raises UnboundLocalError on destination_well_list.
Any other channel count raises ValueError. -/
def adjust_well_volume (L : Ledger) (v : ℚ) (src dst : WellRef) (numChannels : Nat) :
    Except Err Ledger :=
  if numChannels = 1 then
    if isTrash dst then
      Except.ok (addToWells L src.plate.name [(src.row, src.col)] (-(v * 1)))
    else
      Except.ok (addToWells (addToWells L src.plate.name [(src.row, src.col)] (-(v * 1)))
        dst.plate.name [(dst.row, dst.col)] (v * 1))
  else if numChannels = 8 then
    match channelFanout8 src.plate.rows src.plate src.row src.col varSourceRow with
    | Except.error e => Except.error e
    | Except.ok srcOpt =>
      match channelFanout8 (if isTrash dst then 0 else dst.plate.rows)
          dst.plate dst.row dst.col varDestinationRow with
      | Except.error e => Except.error e
      | Except.ok dstOpt =>
        match srcOpt with
        | none => Except.error (Err.nameError varSourceWellList)
        | some su =>
          if isTrash dst then
            Except.ok (addToWells L src.plate.name su.2 (-(v * su.1)))
          else
            match dstOpt with
            | none => Except.error (Err.nameError varDestinationWellList)
            | some du =>
              Except.ok (addToWells (addToWells L src.plate.name su.2 (-(v * su.1)))
                dst.plate.name du.2 (v * du.1))
  else Except.error Err.valueError

/-- A whole-plate well-volume sum, over the full row-by-column grid of the
plate. -/
def plateSum (L : Ledger) (P : Plate) : ℚ :=
  ∑ rc ∈ Finset.range P.rows ×ˢ Finset.range P.cols, L P.name rc.1 rc.2

/-- The well indices lie inside the grid of the plate of the well. -/
def wellInPlate (w : WellRef) : Prop := w.row < w.plate.rows ∧ w.col < w.plate.cols

instance (w : WellRef) : Decidable (wellInPlate w) :=
  inferInstanceAs (Decidable (_ ∧ _))

/-- Plates are identified by their str() name in the ledger dictionary; this
records that a name match with the given plate means the same plate. -/
def plateCompat (w : WellRef) (P : Plate) : Prop := w.plate.name = P.name → w.plate = P

/-- A sequence of single-channel ledger adjustments, one per transfer triple
(volume, source, destination), in order. -/
def applyTransfers (L : Ledger) (ts : List (ℚ × WellRef × WellRef)) : Except Err Ledger :=
  ts.foldlM (fun acc t => adjust_well_volume acc t.1 t.2.1 t.2.2 1) L

/-- Adjacent pairs of a list: the pairs (wells[i], wells[i+1]) visited by the
transfer loop of serial_dilution. -/
def serialPairs {α : Type} : List α → List (α × α)
  | a :: b :: rest => (a, b) :: serialPairs (b :: rest)
  | _ => []

/-- The ledger effect of serial_dilution(pipette, transfer_volume, ...): one
adjust_well_volume call per adjacent pair of the well list, then the discard
of one more transfer_volume from wells[i+1] into the trash.  The mix cycles
(including the mix_before block) issue aspirate and dispense primitives only
and never call adjust_well_volume, so they do not appear in the ledger model;
the unused mixBefore argument records that independence.  The final discard
reads the loop variable i after the loop; when the loop ran zero times
(fewer than two wells) that name is unbound and Python raises
UnboundLocalError on i. -/
def serial_dilution (L : Ledger) (v : ℚ) (wells : List WellRef) (channels : Nat)
    (trash : WellRef) (mixBefore : Bool) : Except Err Ledger :=
  match (serialPairs wells).foldlM
      (fun acc sd => adjust_well_volume acc v sd.1 sd.2 channels) L with
  | Except.error e => Except.error e
  | Except.ok L1 =>
    if 2 ≤ wells.length then
      match wells.getLast? with
      | some lastWell => adjust_well_volume L1 v lastWell trash channels
      | none => Except.error (Err.nameError varLoopIndex)
    else Except.error (Err.nameError varLoopIndex)

/-- Carryover fraction of the distribute branch of custom_transfer. -/
def carryover : ℚ := 1/10

/-- max_wells_per_aspirate = int(pipette.max_volume * (1 - carryover) /
transfer_volume).  Python int() truncates toward zero; both arguments are
positive wherever this is used, so truncation is the floor. -/
def maxWellsPerAspirate (maxVol v : ℚ) : Nat :=
  (⌊maxVol * (1 - carryover) / v⌋).toNat

/-- num_transfer_groups = math.ceil(total_wells / max_wells_per_aspirate). -/
def numTransferGroups (total mwpa : Nat) : Nat :=
  (⌈(total : ℚ) / (mwpa : ℚ)⌉).toNat

/-- The evenly_split_transfers recomputation: math.ceil(total_wells /
num_transfer_groups). -/
def evenSplitMax (total mwpa : Nat) : Nat :=
  (⌈(total : ℚ) / (numTransferGroups total mwpa : ℚ)⌉).toNat

/-- Chunks of size k taken from the front of a list, mirroring the inner
for-loop of the distribute while-loop, which pops up to k destinations per
iteration.  With k = 0 the Python loop would spin forever popping nothing; the
model returns no chunks there, and every theorem assumes k is nonzero. -/
def chunkList {α : Type} (k : Nat) : List α → List (List α)
  | [] => []
  | a :: l =>
    if k = 0 then [] else (a :: l).take k :: chunkList k ((a :: l).drop k)
termination_by l => l.length
decreasing_by simp [List.length_drop]; omega

/-- One iteration trace of the distribute while-loop of custom_transfer, on
the reversed destination list (the source pops destinations off the end of
working_destination_list).  Each step records the batch and the volume drawn by
the aspirate call, which is aspirate_volume - pipette.current_volume with
aspirate_volume = transfer_volume * len(batch) + pipette.max_volume *
carryover; the tip volume then drops by transfer_volume per dispensed well. -/
def distributeAux (v maxVol : ℚ) (k : Nat) : List α → ℚ → List (List α × ℚ)
  | [], _ => []
  | a :: rl, cur =>
    if k = 0 then []
    else
      let batch := (a :: rl).take k
      let aspirateVolume := v * batch.length + maxVol * carryover
      let drawn := aspirateVolume - cur
      let curAfter := cur + drawn - v * batch.length
      (batch, drawn) :: distributeAux v maxVol k ((a :: rl).drop k) curAfter
termination_by l => l.length
decreasing_by simp [List.length_drop]; omega

/-- The distribute branch of custom_transfer: destinations are consumed from
the end of the list (list.pop), so the loop runs on the reversed list; cur is
pipette.current_volume on entry. -/
def custom_transfer_distribute (v maxVol : ℚ) (k : Nat) (dests : List α) (cur : ℚ) :
    List (List α × ℚ) :=
  distributeAux v maxVol k dests.reverse cur

/-- Geometry of a well as used by get_well_edge_offset: physical depth and
width (diameter), both in millimeters. -/
structure WellGeom where
  depth : ℚ
  width : ℚ
deriving DecidableEq

/-- Model name of the single-channel P20 pipette. -/
def p20Name : String := "p20_single_gen2"

/-- Model name of the eight-channel P300 pipette. -/
def p300Name : String := "p300_multi_gen2"

/-- The tip_dict of get_well_edge_offset: pipette model name to (tip base
diameter in mm, tip taper slope in mm diameter per mm length). -/
def tipDict (pipetteName : String) : Option (ℚ × ℚ) :=
  if pipetteName = p20Name then some (0.90, 0.083)
  else if pipetteName = p300Name then some (1.07, 0.093)
  else none

/-- EXTRA_OFFSET of get_well_edge_offset: fixed clearance added so the tip is
positively engaged with the side of the labware. -/
def EXTRA_OFFSET : ℚ := 0.2

/-- get_well_edge_offset(pipette, well, height_above_bottom).  The assert on
height_below_well_top > 0 runs first (AssertionError, alias invalidGeometry).
Then the tip-profile lookup: a KeyError for an unprofiled pipette model is
caught and only printed, after which the offset formula reads the never
assigned local PIPETTE_TIP_WIDTH and raises UnboundLocalError.  On success the
offset is (well width - (base + height_below_well_top * slope)) / 2 +
EXTRA_OFFSET. -/
def get_well_edge_offset (pipetteName : String) (well : WellGeom)
    (heightAboveBottom : ℚ) : Except Err ℚ :=
  let heightBelowWellTop := well.depth - heightAboveBottom
  if heightBelowWellTop > 0 then
    match tipDict pipetteName with
    | some ts =>
      Except.ok ((well.width - (ts.1 + heightBelowWellTop * ts.2)) / 2 + EXTRA_OFFSET)
    | none => Except.error (Err.nameError varPipetteTipWidth)
  else Except.error Err.invalidGeometry

/-- Physical primitives issued by offset_dispense, in well-local coordinates:
x and y are lateral offsets from the well center, z is height above the well
bottom.  dispense and blowOut record the position the pipette is at when they
execute (the source dispenses and blows out at the current location). -/
inductive Action where
  | moveTo : ℚ → ℚ → ℚ → Bool → Action
  | dispense : ℚ → ℚ → ℚ → ℚ → Action
  | blowOut : ℚ → ℚ → ℚ → Action
  | touchTip : ℚ → Action
  | delaySeconds : ℚ → Action
deriving DecidableEq

/-- Offset direction strings accepted by offset_dispense. -/
def dirCenter : String := "center"

/-- Offset direction right. -/
def dirRight : String := "right"

/-- Offset direction left. -/
def dirLeft : String := "left"

/-- Offset direction top. -/
def dirTop : String := "top"

/-- Offset direction bottom. -/
def dirBottom : String := "bottom"

/-- offset_dispense(pipette, well, transfer_volume, ...): computes the edge
offset (the custom override is Python-truthy, so a zero override still falls
back to the computed offset), resolves the direction (unknown directions raise
RuntimeError, alias invalidOffsetDirection), then issues: optional inspection
move and delay, move to center at dispense height, direct move to the offset
position, dispense there, direct move back to center; when blow-out is on,
move to center at the destination blow-out height, then a direct move to the
offset position again at the DISPENSE height (the source passes
z=dispense_height in this move), blow out there, and a direct move back to
center at the blow-out height; finally an optional touch tip at speed 20. -/
def offset_dispense (pipetteName : String) (well : WellGeom) (v : ℚ)
    (offsetDirection : String) (customOffset : Option ℚ) (dispenseHeight : ℚ)
    (doBlowout : Bool) (destBlowoutHeight : ℚ) (doTouchTip : Bool)
    (inspectTips : Bool) : Except Err (List Action) :=
  let offsetRes : Except Err ℚ :=
    match customOffset with
    | some d => if d ≠ 0 then Except.ok d
                else get_well_edge_offset pipetteName well dispenseHeight
    | none => get_well_edge_offset pipetteName well dispenseHeight
  match offsetRes with
  | Except.error e => Except.error e
  | Except.ok offsetDistance =>
    let offXY : Except Err (ℚ × ℚ) :=
      if offsetDirection = dirCenter then Except.ok (0, 0)
      else if offsetDirection = dirRight then Except.ok (offsetDistance, 0)
      else if offsetDirection = dirLeft then Except.ok (-offsetDistance, 0)
      else if offsetDirection = dirTop then Except.ok (0, offsetDistance)
      else if offsetDirection = dirBottom then Except.ok (0, -offsetDistance)
      else Except.error Err.invalidOffsetDirection
    match offXY with
    | Except.error e => Except.error e
    | Except.ok xy =>
      Except.ok
        ((if inspectTips then
            [Action.moveTo 0 0 (well.depth + 10) false, Action.delaySeconds 3]
          else []) ++
         [Action.moveTo 0 0 dispenseHeight false,
          Action.moveTo xy.1 xy.2 dispenseHeight true,
          Action.dispense v xy.1 xy.2 dispenseHeight,
          Action.moveTo 0 0 dispenseHeight true] ++
         (if doBlowout then
            [Action.moveTo 0 0 destBlowoutHeight false,
             Action.moveTo xy.1 xy.2 dispenseHeight true,
             Action.blowOut xy.1 xy.2 dispenseHeight,
             Action.moveTo 0 0 destBlowoutHeight true]
          else []) ++
         (if doTouchTip then [Action.touchTip 20] else []))

/-- The all-zero ledger, the state after reset_well_volumes. -/
def L0 : Ledger := fun _ _ _ => 0

/-- The 12-well reservoir: a 1-row plate. -/
def resPlate : Plate := ⟨"res12", 1, 12⟩

/-- The 96 deep-well plate: an 8-row plate. -/
def deepPlate : Plate := ⟨"deep96", 8, 12⟩

/-- The 384-well assay plate: a 16-row plate. -/
def assayPlate : Plate := ⟨"assay384", 16, 24⟩

/-- The fixed-trash labware; its name contains the trash marker. -/
def trashPlate : Plate := ⟨"Opentrons Fixed Trash on 12", 1, 1⟩

/-- The trash destination well protocol.fixed_trash[A1]. -/
def trashWell : WellRef := ⟨trashPlate, 0, 0⟩

/-- A hypothetical plate with a row count outside 1, 8 and 16. -/
def plate12 : Plate := ⟨"plate12", 12, 8⟩

/-- A pipette model name that has no profile in tip_dict. -/
def p1000Name : String := "p1000_single_gen2"

/-! Helper lemmas about the ledger primitives. -/

theorem addToWells_nil (L : Ledger) (pn : String) (dv : ℚ) :
    addToWells L pn [] dv = L := rfl

theorem addToWells_cons (L : Ledger) (pn : String) (rc : Nat × Nat)
    (ws : List (Nat × Nat)) (dv : ℚ) :
    addToWells L pn (rc :: ws) dv = addToWells (updateVol L pn rc.1 rc.2 dv) pn ws dv := rfl

theorem updateVol_apply (L : Ledger) (pn : String) (r c : Nat) (dv : ℚ)
    (q : String) (r2 c2 : Nat) :
    updateVol L pn r c dv q r2 c2 =
      L q r2 c2 + (if q = pn ∧ r2 = r ∧ c2 = c then dv else 0) := by
  unfold updateVol; split_ifs <;> ring

theorem addToWells_delta (pn : String) (dv : ℚ) (ws : List (Nat × Nat)) :
    ∀ (L : Ledger) (q : String) (r c : Nat),
      addToWells L pn ws dv q r c =
        L q r c + (if q = pn then ((ws.count (r, c) : ℚ)) * dv else 0) := by
  induction ws with
  | nil => intro L q r c; simp [addToWells_nil]
  | cons rc ws ih =>
    intro L q r c
    rw [addToWells_cons, ih, updateVol_apply, List.count_cons]
    by_cases hq : q = pn
    · by_cases hrc : (r, c) = rc
      · obtain ⟨h1, h2⟩ := Prod.mk.injEq r c rc.1 rc.2 ▸ hrc
        simp [hq, hrc, ← h1, ← h2]
        push_cast
        ring
      · have hrc2 : ¬(r = rc.1 ∧ c = rc.2) := by
          intro h; exact hrc (Prod.ext h.1 h.2)
        have hrc3 : rc ≠ (r, c) := fun h => hrc h.symm
        simp [hq, hrc, hrc2, hrc3]
    · simp [hq]

/-- Counting a pair in a column-style list of pairs with a common second
component. -/
theorem count_pairList (rows : List Nat) (hrows : rows.Nodup) (cw r c : Nat) :
    ((rows.map (fun i => (i, cw))).count (r, c)) =
      if r ∈ rows ∧ c = cw then 1 else 0 := by
  induction rows with
  | nil => simp
  | cons a t ih =>
    have hnd := List.nodup_cons.mp hrows
    rw [List.map_cons, List.count_cons, ih hnd.2]
    simp only [beq_iff_eq, Prod.mk.injEq, List.mem_cons]
    by_cases h1 : r = a
    · subst h1
      have hnt : r ∉ t := hnd.1
      by_cases h2 : c = cw <;> simp [h2, hnt] <;> omega
    · by_cases h2 : c = cw <;> by_cases h3 : r ∈ t <;> simp [h1, h2, h3] <;> omega

theorem plateSum_updateVol (L : Ledger) (pn : String) (r c : Nat) (dv : ℚ) (P : Plate) :
    plateSum (updateVol L pn r c dv) P =
      plateSum L P + (if P.name = pn ∧ r < P.rows ∧ c < P.cols then dv else 0) := by
  unfold plateSum
  by_cases hpn : P.name = pn
  · have hcongr : ∀ rc ∈ Finset.range P.rows ×ˢ Finset.range P.cols,
        updateVol L pn r c dv P.name rc.1 rc.2 =
          L P.name rc.1 rc.2 + (if rc = (r, c) then dv else 0) := by
      intro rc _
      rw [updateVol_apply]
      have : (P.name = pn ∧ rc.1 = r ∧ rc.2 = c) ↔ rc = (r, c) := by
        constructor
        · intro h; exact Prod.ext h.2.1 h.2.2
        · intro h; exact ⟨hpn, congrArg Prod.fst h, congrArg Prod.snd h⟩
      rw [if_congr this rfl rfl]
    rw [Finset.sum_congr rfl hcongr, Finset.sum_add_distrib,
      Finset.sum_ite_eq' (Finset.range P.rows ×ˢ Finset.range P.cols) (r, c)
        (fun _ => dv)]
    simp [Finset.mem_product, hpn]
  · have hcongr : ∀ rc ∈ Finset.range P.rows ×ˢ Finset.range P.cols,
        updateVol L pn r c dv P.name rc.1 rc.2 = L P.name rc.1 rc.2 := by
      intro rc _
      rw [updateVol_apply]
      simp [hpn]
    rw [Finset.sum_congr rfl hcongr]
    simp [hpn]

/-- Single-channel adjust_well_volume never fails, and its result is the
pointwise superposition of a decrement at the source key and, unless the
destination is the trash, an increment at the destination key. -/
theorem adjust_one_eq (L : Ledger) (v : ℚ) (src dst : WellRef) :
    adjust_well_volume L v src dst 1 = Except.ok (fun p r c =>
      L p r c + (if isTrash dst = false ∧ (p, r, c) = key dst then v else 0)
              - (if (p, r, c) = key src then v else 0)) := by
  cases ht : isTrash dst with
  | true =>
    have hred : adjust_well_volume L v src dst 1 =
        Except.ok (addToWells L src.plate.name [(src.row, src.col)] (-(v * 1))) := by
      simp [adjust_well_volume, ht]
    rw [hred]
    congr 1
    funext p r c
    rw [addToWells_cons, addToWells_nil, updateVol_apply]
    simp only [ht, Bool.true_eq_false, false_and, if_false, key, Prod.mk.injEq]
    split_ifs <;> ring
  | false =>
    have hred : adjust_well_volume L v src dst 1 =
        Except.ok (addToWells (addToWells L src.plate.name [(src.row, src.col)]
          (-(v * 1))) dst.plate.name [(dst.row, dst.col)] (v * 1)) := by
      simp [adjust_well_volume, ht]
    rw [hred]
    congr 1
    funext p r c
    rw [addToWells_cons, addToWells_nil, addToWells_cons, addToWells_nil,
      updateVol_apply, updateVol_apply]
    simp only [ht, key, Prod.mk.injEq, true_and]
    split_ifs <;> ring

/-- Plate-sum effect of one successful single-channel non-trash adjust. -/
theorem plateSum_adjust_one (L L2 : Ledger) (v : ℚ) (src dst : WellRef) (P : Plate)
    (hok : adjust_well_volume L v src dst 1 = Except.ok L2)
    (ht : isTrash dst = false)
    (hs : wellInPlate src) (hd : wellInPlate dst)
    (hcs : plateCompat src P) (hcd : plateCompat dst P) :
    plateSum L2 P = plateSum L P + (if dst.plate.name = P.name then v else 0)
      - (if src.plate.name = P.name then v else 0) := by
  have hval : L2 = addToWells (addToWells L src.plate.name [(src.row, src.col)] (-(v * 1)))
      dst.plate.name [(dst.row, dst.col)] (v * 1) := by
    have := hok
    unfold adjust_well_volume at this
    rw [if_pos rfl, ht] at this
    simpa using this.symm
  have hup : L2 = updateVol (updateVol L src.plate.name src.row src.col (-(v * 1)))
      dst.plate.name dst.row dst.col (v * 1) := by
    rw [hval, addToWells_cons, addToWells_nil, addToWells_cons, addToWells_nil]
  rw [hup, plateSum_updateVol, plateSum_updateVol]
  have hsrc : (if P.name = src.plate.name ∧ src.row < P.rows ∧ src.col < P.cols
      then -(v * 1) else 0) = -(if src.plate.name = P.name then v else 0) := by
    by_cases hn : src.plate.name = P.name
    · have hpe : src.plate = P := hcs hn
      rw [if_pos ⟨hn.symm, by rw [← hpe]; exact hs.1, by rw [← hpe]; exact hs.2⟩,
        if_pos hn]
      ring
    · rw [if_neg (fun h => hn h.1.symm), if_neg hn]
      ring
  have hdst : (if P.name = dst.plate.name ∧ dst.row < P.rows ∧ dst.col < P.cols
      then v * 1 else 0) = (if dst.plate.name = P.name then v else 0) := by
    by_cases hn : dst.plate.name = P.name
    · have hpe : dst.plate = P := hcd hn
      rw [if_pos ⟨hn.symm, by rw [← hpe]; exact hd.1, by rw [← hpe]; exact hd.2⟩,
        if_pos hn]
      ring
    · rw [if_neg (fun h => hn h.1.symm), if_neg hn]
  rw [hsrc, hdst]
  ring

/-- Conservation along a sequence of single-channel non-trash transfers. -/
theorem applyTransfers_plateSum :
    ∀ (ts : List (ℚ × WellRef × WellRef)) (L : Ledger),
      (∀ t ∈ ts, isTrash t.2.2 = false ∧ wellInPlate t.2.1 ∧ wellInPlate t.2.2) →
      ∃ L2, applyTransfers L ts = Except.ok L2 ∧
        ∀ P : Plate, (∀ t ∈ ts, plateCompat t.2.1 P ∧ plateCompat t.2.2 P) →
          plateSum L2 P = plateSum L P +
            (ts.map (fun t => (if t.2.2.plate.name = P.name then t.1 else 0)
              - (if t.2.1.plate.name = P.name then t.1 else 0))).sum := by
  intro ts
  induction ts with
  | nil =>
    intro L _
    exact ⟨L, rfl, by intro P _; simp⟩
  | cons t ts ih =>
    intro L hh
    have ht := hh t (List.mem_cons_self t ts)
    obtain ⟨L1, hok1⟩ : ∃ L1, adjust_well_volume L t.1 t.2.1 t.2.2 1 = Except.ok L1 :=
      ⟨_, adjust_one_eq L t.1 t.2.1 t.2.2⟩
    obtain ⟨L2, hok2, hsum⟩ := ih L1 (fun u hu => hh u (List.mem_cons_of_mem t hu))
    refine ⟨L2, ?_, ?_⟩
    · show List.foldlM _ L (t :: ts) = Except.ok L2
      rw [List.foldlM_cons]
      show adjust_well_volume L t.1 t.2.1 t.2.2 1 >>= _ = Except.ok L2
      rw [hok1]
      exact hok2
    · intro P hP
      have hPt := hP t (List.mem_cons_self t ts)
      have h1 := plateSum_adjust_one L L1 t.1 t.2.1 t.2.2 P hok1 ht.1 ht.2.1 ht.2.2
        hPt.1 hPt.2
      rw [hsum P (fun u hu => hP u (List.mem_cons_of_mem t hu)), h1, List.map_cons,
        List.sum_cons]
      ring

/-- Every plate has sum zero in the all-zero ledger. -/
theorem plateSum_L0 (P : Plate) : plateSum L0 P = 0 := by
  simp [plateSum, L0]

/-- Claim C1: a single-channel ledger adjustment decrements the source well by
exactly the transfer volume and increments the destination well by exactly the
transfer volume, except that a trash destination receives no increment; and
along any sequence of single-channel non-trash transfers the plate sum of the
destination plate gains the transfer volume per transfer, the plate sum of the
source plate loses it, and a plate serving as both gains zero net. -/
theorem adjust_single_channel_spec :
    (∀ (L : Ledger) (v : ℚ) (src dst : WellRef),
      ∃ L2, adjust_well_volume L v src dst 1 = Except.ok L2 ∧
        (∀ p r c, L2 p r c = L p r c
          + (if isTrash dst = false ∧ (p, r, c) = key dst then v else 0)
          - (if (p, r, c) = key src then v else 0)) ∧
        (∀ P : Plate, isTrash dst = false → wellInPlate src → wellInPlate dst →
          plateCompat src P → plateCompat dst P →
          plateSum L2 P = plateSum L P + (if dst.plate.name = P.name then v else 0)
            - (if src.plate.name = P.name then v else 0)))
    ∧ (∀ (L : Ledger) (ts : List (ℚ × WellRef × WellRef)),
        (∀ t ∈ ts, isTrash t.2.2 = false ∧ wellInPlate t.2.1 ∧ wellInPlate t.2.2) →
        ∃ L2, applyTransfers L ts = Except.ok L2 ∧
          ∀ P : Plate, (∀ t ∈ ts, plateCompat t.2.1 P ∧ plateCompat t.2.2 P) →
            plateSum L2 P = plateSum L P +
              (ts.map (fun t => (if t.2.2.plate.name = P.name then t.1 else 0)
                - (if t.2.1.plate.name = P.name then t.1 else 0))).sum) := by
  constructor
  · intro L v src dst
    refine ⟨_, adjust_one_eq L v src dst, fun p r c => rfl, ?_⟩
    intro P ht hs hd hcs hcd
    exact plateSum_adjust_one L _ v src dst P (adjust_one_eq L v src dst) ht hs hd hcs hcd
  · intro L ts hh
    exact applyTransfers_plateSum ts L hh

/-- Claim C1 witness: a concrete cross-plate transfer of 7 microliters, a
concrete transfer into the trash, and a concrete two-transfer sequence whose
second transfer stays on one plate. -/
theorem adjust_single_channel_spec_witness :
    (∃ L2, adjust_well_volume L0 7 ⟨deepPlate, 0, 0⟩ ⟨assayPlate, 1, 2⟩ 1 = Except.ok L2 ∧
      atWell L2 ⟨assayPlate, 1, 2⟩ = 7 ∧ atWell L2 ⟨deepPlate, 0, 0⟩ = -7 ∧
      atWell L2 ⟨assayPlate, 0, 0⟩ = 0 ∧
      plateSum L2 assayPlate = 7 ∧ plateSum L2 deepPlate = -7)
    ∧ (∃ L2, adjust_well_volume L0 7 ⟨deepPlate, 0, 0⟩ trashWell 1 = Except.ok L2 ∧
      atWell L2 ⟨deepPlate, 0, 0⟩ = -7 ∧ atWell L2 trashWell = 0)
    ∧ (∃ L2, applyTransfers L0
        [(7, ⟨deepPlate, 0, 0⟩, ⟨assayPlate, 1, 2⟩),
         (5, ⟨assayPlate, 1, 2⟩, ⟨assayPlate, 0, 0⟩)] = Except.ok L2 ∧
      plateSum L2 assayPlate = 7 ∧ plateSum L2 deepPlate = -7) := by
  obtain ⟨part1, part2⟩ := adjust_single_channel_spec
  have htrA : isTrash ⟨assayPlate, 1, 2⟩ = false := by decide
  have htrT : isTrash trashWell = true := by decide
  have hne : assayPlate.name ≠ deepPlate.name := by decide
  have hne2 : deepPlate.name ≠ trashWell.plate.name := by decide
  refine ⟨?_, ?_, ?_⟩
  · obtain ⟨L2, hok, hpt, hps⟩ := part1 L0 7 ⟨deepPlate, 0, 0⟩ ⟨assayPlate, 1, 2⟩
    refine ⟨L2, hok, ?_, ?_, ?_, ?_, ?_⟩
    · have := hpt (assayPlate.name) 1 2
      simp only [atWell]
      rw [this]
      simp [htrA, L0, key, hne]
    · have := hpt (deepPlate.name) 0 0
      simp only [atWell]
      rw [this]
      simp [htrA, L0, key, hne.symm]
    · have := hpt (assayPlate.name) 0 0
      simp only [atWell]
      rw [this]
      simp [htrA, L0, key, hne]
      decide
    · have := hps assayPlate htrA (by decide) (by decide)
        (fun h => absurd h hne.symm) (fun _ => rfl)
      rw [this, plateSum_L0]
      simp [hne.symm]
    · have := hps deepPlate htrA (by decide) (by decide)
        (fun _ => rfl) (fun h => absurd h hne)
      rw [this, plateSum_L0]
      simp [hne]
  · obtain ⟨L2, hok, hpt, _⟩ := part1 L0 7 ⟨deepPlate, 0, 0⟩ trashWell
    refine ⟨L2, hok, ?_, ?_⟩
    · have := hpt (deepPlate.name) 0 0
      simp only [atWell]
      rw [this]
      simp [htrT, L0, key]
    · have := hpt (trashWell.plate.name) trashWell.row trashWell.col
      simp only [atWell]
      rw [this]
      simp [htrT, L0, key, hne2.symm]
  · obtain ⟨L2, hok, hps⟩ := part2 L0
      [(7, ⟨deepPlate, 0, 0⟩, ⟨assayPlate, 1, 2⟩),
       (5, ⟨assayPlate, 1, 2⟩, ⟨assayPlate, 0, 0⟩)]
      (by intro t htm; fin_cases htm <;> exact ⟨by decide, by decide, by decide⟩)
    refine ⟨L2, hok, ?_, ?_⟩
    · have := hps assayPlate (by
        intro t htm
        fin_cases htm
        · exact ⟨fun h => absurd h (by decide), fun _ => rfl⟩
        · exact ⟨fun _ => rfl, fun _ => rfl⟩)
      rw [this, plateSum_L0]
      simp [assayPlate, deepPlate]
    · have := hps deepPlate (by
        intro t htm
        fin_cases htm
        · exact ⟨fun _ => rfl, fun h => absurd h (by decide)⟩
        · exact ⟨fun h => absurd h (by decide), fun h => absurd h (by decide)⟩)
      rw [this, plateSum_L0]
      simp [assayPlate, deepPlate]

theorem rowLetter_zero : rowLetter 0 = 'A' := by decide

theorem rowLetter_one : rowLetter 1 = 'B' := by decide

theorem rowLetter_one_ne : rowLetter 1 ≠ 'A' := by decide

theorem columnWells_count (p : Plate) (cw r c : Nat) :
    ((columnWells p cw).count (r, c)) = if r < p.rows ∧ c = cw then 1 else 0 := by
  unfold columnWells
  rw [count_pairList _ (List.nodup_range _)]
  simp [List.mem_range]

theorem col16_sel0 (p : Plate) (hp : p.rows = 16) (cw : Nat) :
    everySecond ((columnWells p cw).drop 0) =
      [0, 2, 4, 6, 8, 10, 12, 14].map (fun i => (i, cw)) := by
  unfold columnWells
  rw [hp]
  rfl

theorem col16_sel1 (p : Plate) (hp : p.rows = 16) (cw : Nat) :
    everySecond ((columnWells p cw).drop 1) =
      [1, 3, 5, 7, 9, 11, 13, 15].map (fun i => (i, cw)) := by
  unfold columnWells
  rw [hp]
  rfl

theorem sel0_count (cw r c : Nat) :
    ((([0, 2, 4, 6, 8, 10, 12, 14] : List Nat).map (fun i => (i, cw))).count (r, c)) =
      if r < 16 ∧ r % 2 = 0 ∧ c = cw then 1 else 0 := by
  have hm : (r ∈ ([0, 2, 4, 6, 8, 10, 12, 14] : List Nat) ∧ c = cw) ↔
      (r < 16 ∧ r % 2 = 0 ∧ c = cw) := by
    simp only [List.mem_cons, List.not_mem_nil, or_false]
    omega
  rw [count_pairList _ (by decide), if_congr hm rfl rfl]

theorem sel1_count (cw r c : Nat) :
    ((([1, 3, 5, 7, 9, 11, 13, 15] : List Nat).map (fun i => (i, cw))).count (r, c)) =
      if r < 16 ∧ r % 2 = 1 ∧ c = cw then 1 else 0 := by
  have hm : (r ∈ ([1, 3, 5, 7, 9, 11, 13, 15] : List Nat) ∧ c = cw) ↔
      (r < 16 ∧ r % 2 = 1 ∧ c = cw) := by
    simp only [List.mem_cons, List.not_mem_nil, or_false]
    omega
  rw [count_pairList _ (by decide), if_congr hm rfl rfl]

theorem singleton_count (rr cc r c : Nat) :
    ((([(rr, cc)] : List (Nat × Nat))).count (r, c)) =
      if r = rr ∧ c = cc then 1 else 0 := by
  rw [List.count_cons]
  simp only [beq_iff_eq, Prod.mk.injEq, List.count_nil]
  split_ifs <;> omega

/-- Claim C2: 8-channel ledger fan-out.  From a 1-row plate all 8 channels
draw from (or dispense into) the single addressed well, an 8-fold volume on
that one well.  On an 8-row plate starting at row A, each of the 8 wells of
the column changes by the transfer volume.  On a 16-row plate starting at row
A or B, every other well of the column starting there (8 wells) changes by the
transfer volume.  Stated for the source side (with a trash destination, which
receives nothing) and for the destination side (with a 1-row source). -/
theorem adjust_multichannel_fanout_spec (L : Ledger) (v : ℚ) (src dst : WellRef) :
    (src.plate.rows = 1 → isTrash dst = true →
      ∃ L2, adjust_well_volume L v src dst 8 = Except.ok L2 ∧
        ∀ p r c, L2 p r c = L p r c - (if (p, r, c) = key src then 8 * v else 0))
    ∧ (src.plate.rows = 8 → src.row = 0 → isTrash dst = true →
      ∃ L2, adjust_well_volume L v src dst 8 = Except.ok L2 ∧
        ∀ p r c, L2 p r c = L p r c
          - (if p = src.plate.name ∧ r < 8 ∧ c = src.col then v else 0))
    ∧ (src.plate.rows = 16 → (src.row = 0 ∨ src.row = 1) → isTrash dst = true →
      ∃ L2, adjust_well_volume L v src dst 8 = Except.ok L2 ∧
        ∀ p r c, L2 p r c = L p r c
          - (if p = src.plate.name ∧ r < 16 ∧ r % 2 = src.row % 2 ∧ c = src.col
             then v else 0))
    ∧ (src.plate.rows = 1 → isTrash dst = false → dst.plate.rows = 1 →
      ∃ L2, adjust_well_volume L v src dst 8 = Except.ok L2 ∧
        ∀ p r c, L2 p r c = L p r c + (if (p, r, c) = key dst then 8 * v else 0)
          - (if (p, r, c) = key src then 8 * v else 0))
    ∧ (src.plate.rows = 1 → isTrash dst = false → dst.plate.rows = 8 → dst.row = 0 →
      ∃ L2, adjust_well_volume L v src dst 8 = Except.ok L2 ∧
        ∀ p r c, L2 p r c = L p r c
          + (if p = dst.plate.name ∧ r < 8 ∧ c = dst.col then v else 0)
          - (if (p, r, c) = key src then 8 * v else 0))
    ∧ (src.plate.rows = 1 → isTrash dst = false → dst.plate.rows = 16 →
        (dst.row = 0 ∨ dst.row = 1) →
      ∃ L2, adjust_well_volume L v src dst 8 = Except.ok L2 ∧
        ∀ p r c, L2 p r c = L p r c
          + (if p = dst.plate.name ∧ r < 16 ∧ r % 2 = dst.row % 2 ∧ c = dst.col
             then v else 0)
          - (if (p, r, c) = key src then 8 * v else 0)) := by
  refine ⟨?_, ?_, ?_, ?_, ?_, ?_⟩
  · intro h1 h2
    refine ⟨addToWells L src.plate.name [(src.row, src.col)] (-(v * 8)), ?_, ?_⟩
    · simp [adjust_well_volume, channelFanout8, h1, h2]
    · intro p r c
      rw [addToWells_delta, singleton_count]
      simp only [key, Prod.mk.injEq]
      split_ifs <;> simp_all <;> first | ring1 | (exfalso; omega)
  · intro h1 hrow h2
    refine ⟨addToWells L src.plate.name (columnWells src.plate src.col) (-(v * 1)), ?_, ?_⟩
    · simp [adjust_well_volume, channelFanout8, h1, h2, hrow, rowLetter_zero]
    · intro p r c
      rw [addToWells_delta, columnWells_count, h1]
      split_ifs <;> simp_all <;> first | ring1 | (exfalso; omega)
  · intro h1 hrow h2
    rcases hrow with hrow | hrow
    · refine ⟨addToWells L src.plate.name
        ([0, 2, 4, 6, 8, 10, 12, 14].map (fun i => (i, src.col))) (-(v * 1)), ?_, ?_⟩
      · rw [show addToWells L src.plate.name
            ([0, 2, 4, 6, 8, 10, 12, 14].map (fun i => (i, src.col))) (-(v * 1)) =
            addToWells L src.plate.name (everySecond ((columnWells src.plate src.col).drop 0))
              (-(v * 1)) by rw [col16_sel0 _ h1]]
        simp [adjust_well_volume, channelFanout8, h1, h2, hrow, rowLetter_zero]
      · intro p r c
        rw [addToWells_delta, sel0_count]
        rw [hrow]
        norm_num
        split_ifs <;> simp_all <;> first | ring1 | (exfalso; omega)
    · refine ⟨addToWells L src.plate.name
        ([1, 3, 5, 7, 9, 11, 13, 15].map (fun i => (i, src.col))) (-(v * 1)), ?_, ?_⟩
      · rw [show addToWells L src.plate.name
            ([1, 3, 5, 7, 9, 11, 13, 15].map (fun i => (i, src.col))) (-(v * 1)) =
            addToWells L src.plate.name (everySecond ((columnWells src.plate src.col).drop 1))
              (-(v * 1)) by rw [col16_sel1 _ h1]]
        simp [adjust_well_volume, channelFanout8, h1, h2, hrow, rowLetter_one,
          rowLetter_one_ne]
      · intro p r c
        rw [addToWells_delta, sel1_count]
        rw [hrow]
        norm_num
        split_ifs <;> simp_all <;> first | ring1 | (exfalso; omega)
  · intro h1 h2 h3
    refine ⟨addToWells (addToWells L src.plate.name [(src.row, src.col)] (-(v * 8)))
      dst.plate.name [(dst.row, dst.col)] (v * 8), ?_, ?_⟩
    · simp [adjust_well_volume, channelFanout8, h1, h2, h3]
    · intro p r c
      rw [addToWells_delta, addToWells_delta, singleton_count, singleton_count]
      simp only [key, Prod.mk.injEq]
      split_ifs <;> simp_all <;> first | ring1 | (exfalso; omega)
  · intro h1 h2 h3 hrow
    refine ⟨addToWells (addToWells L src.plate.name [(src.row, src.col)] (-(v * 8)))
      dst.plate.name (columnWells dst.plate dst.col) (v * 1), ?_, ?_⟩
    · simp [adjust_well_volume, channelFanout8, h1, h2, h3, hrow, rowLetter_zero]
    · intro p r c
      rw [addToWells_delta, addToWells_delta, singleton_count, columnWells_count, h3]
      simp only [key, Prod.mk.injEq]
      split_ifs <;> simp_all <;> first | ring1 | (exfalso; omega)
  · intro h1 h2 h3 hrow
    rcases hrow with hrow | hrow
    · refine ⟨addToWells (addToWells L src.plate.name [(src.row, src.col)] (-(v * 8)))
        dst.plate.name ([0, 2, 4, 6, 8, 10, 12, 14].map (fun i => (i, dst.col))) (v * 1),
        ?_, ?_⟩
      · rw [show addToWells (addToWells L src.plate.name [(src.row, src.col)] (-(v * 8)))
            dst.plate.name ([0, 2, 4, 6, 8, 10, 12, 14].map (fun i => (i, dst.col))) (v * 1) =
            addToWells (addToWells L src.plate.name [(src.row, src.col)] (-(v * 8)))
              dst.plate.name (everySecond ((columnWells dst.plate dst.col).drop 0)) (v * 1)
          by rw [col16_sel0 _ h3]]
        simp [adjust_well_volume, channelFanout8, h1, h2, h3, hrow, rowLetter_zero]
      · intro p r c
        rw [addToWells_delta, addToWells_delta, singleton_count, sel0_count]
        rw [hrow]
        simp only [key, Prod.mk.injEq]
        norm_num
        split_ifs <;> simp_all <;> first | ring1 | (exfalso; omega)
    · refine ⟨addToWells (addToWells L src.plate.name [(src.row, src.col)] (-(v * 8)))
        dst.plate.name ([1, 3, 5, 7, 9, 11, 13, 15].map (fun i => (i, dst.col))) (v * 1),
        ?_, ?_⟩
      · rw [show addToWells (addToWells L src.plate.name [(src.row, src.col)] (-(v * 8)))
            dst.plate.name ([1, 3, 5, 7, 9, 11, 13, 15].map (fun i => (i, dst.col))) (v * 1) =
            addToWells (addToWells L src.plate.name [(src.row, src.col)] (-(v * 8)))
              dst.plate.name (everySecond ((columnWells dst.plate dst.col).drop 1)) (v * 1)
          by rw [col16_sel1 _ h3]]
        simp [adjust_well_volume, channelFanout8, h1, h2, h3, hrow, rowLetter_one,
          rowLetter_one_ne]
      · intro p r c
        rw [addToWells_delta, addToWells_delta, singleton_count, sel1_count]
        rw [hrow]
        simp only [key, Prod.mk.injEq]
        norm_num
        split_ifs <;> simp_all <;> first | ring1 | (exfalso; omega)

/-- Claim C2 witness: concrete 8-channel adjustments with volume 5 on the
1-row reservoir, the 8-row deep-well plate and the 16-row assay plate. -/
theorem adjust_multichannel_fanout_spec_witness :
    (∃ L2, adjust_well_volume L0 5 ⟨resPlate, 0, 3⟩ trashWell 8 = Except.ok L2 ∧
      atWell L2 ⟨resPlate, 0, 3⟩ = -40)
    ∧ (∃ L2, adjust_well_volume L0 5 ⟨deepPlate, 0, 2⟩ trashWell 8 = Except.ok L2 ∧
      atWell L2 ⟨deepPlate, 5, 2⟩ = -5 ∧ atWell L2 ⟨deepPlate, 0, 2⟩ = -5)
    ∧ (∃ L2, adjust_well_volume L0 5 ⟨assayPlate, 1, 4⟩ trashWell 8 = Except.ok L2 ∧
      atWell L2 ⟨assayPlate, 7, 4⟩ = -5 ∧ atWell L2 ⟨assayPlate, 6, 4⟩ = 0)
    ∧ (∃ L2, adjust_well_volume L0 5 ⟨resPlate, 0, 0⟩ ⟨resPlate, 0, 5⟩ 8 = Except.ok L2 ∧
      atWell L2 ⟨resPlate, 0, 5⟩ = 40 ∧ atWell L2 ⟨resPlate, 0, 0⟩ = -40)
    ∧ (∃ L2, adjust_well_volume L0 5 ⟨resPlate, 0, 0⟩ ⟨deepPlate, 0, 3⟩ 8 = Except.ok L2 ∧
      atWell L2 ⟨deepPlate, 4, 3⟩ = 5 ∧ atWell L2 ⟨resPlate, 0, 0⟩ = -40)
    ∧ (∃ L2, adjust_well_volume L0 5 ⟨resPlate, 0, 0⟩ ⟨assayPlate, 0, 6⟩ 8 = Except.ok L2 ∧
      atWell L2 ⟨assayPlate, 14, 6⟩ = 5 ∧ atWell L2 ⟨assayPlate, 13, 6⟩ = 0) := by
  refine ⟨?_, ?_, ?_, ?_, ?_, ?_⟩
  · obtain ⟨L2, hok, hpt⟩ :=
      (adjust_multichannel_fanout_spec L0 5 ⟨resPlate, 0, 3⟩ trashWell).1 rfl (by decide)
    refine ⟨L2, hok, ?_⟩
    have := hpt (resPlate.name) 0 3
    simp only [atWell]
    rw [this]
    norm_num [L0, key, resPlate] <;> decide
  · obtain ⟨L2, hok, hpt⟩ :=
      (adjust_multichannel_fanout_spec L0 5 ⟨deepPlate, 0, 2⟩ trashWell).2.1 rfl rfl
        (by decide)
    refine ⟨L2, hok, ?_, ?_⟩
    · have := hpt (deepPlate.name) 5 2
      simp only [atWell]
      rw [this]
      norm_num [L0, key, deepPlate] <;> decide
    · have := hpt (deepPlate.name) 0 2
      simp only [atWell]
      rw [this]
      norm_num [L0, key, deepPlate] <;> decide
  · obtain ⟨L2, hok, hpt⟩ :=
      (adjust_multichannel_fanout_spec L0 5 ⟨assayPlate, 1, 4⟩ trashWell).2.2.1 rfl
        (Or.inr rfl) (by decide)
    refine ⟨L2, hok, ?_, ?_⟩
    · have := hpt (assayPlate.name) 7 4
      simp only [atWell]
      rw [this]
      norm_num [L0, key, assayPlate] <;> decide
    · have := hpt (assayPlate.name) 6 4
      simp only [atWell]
      rw [this]
      norm_num [L0, key, assayPlate] <;> decide
  · obtain ⟨L2, hok, hpt⟩ :=
      (adjust_multichannel_fanout_spec L0 5 ⟨resPlate, 0, 0⟩ ⟨resPlate, 0, 5⟩).2.2.2.1 rfl
        (by decide) rfl
    refine ⟨L2, hok, ?_, ?_⟩
    · have := hpt (resPlate.name) 0 5
      simp only [atWell]
      rw [this]
      norm_num [L0, key, resPlate] <;> decide
    · have := hpt (resPlate.name) 0 0
      simp only [atWell]
      rw [this]
      norm_num [L0, key, resPlate] <;> decide
  · obtain ⟨L2, hok, hpt⟩ :=
      (adjust_multichannel_fanout_spec L0 5 ⟨resPlate, 0, 0⟩ ⟨deepPlate, 0, 3⟩).2.2.2.2.1 rfl
        (by decide) rfl rfl
    refine ⟨L2, hok, ?_, ?_⟩
    · have := hpt (deepPlate.name) 4 3
      simp only [atWell]
      rw [this]
      norm_num [L0, key, resPlate, deepPlate] <;> decide
    · have := hpt (resPlate.name) 0 0
      simp only [atWell]
      rw [this]
      norm_num [L0, key, resPlate, deepPlate] <;> decide
  · obtain ⟨L2, hok, hpt⟩ :=
      (adjust_multichannel_fanout_spec L0 5 ⟨resPlate, 0, 0⟩ ⟨assayPlate, 0, 6⟩).2.2.2.2.2 rfl
        (by decide) rfl (Or.inl rfl)
    refine ⟨L2, hok, ?_, ?_⟩
    · have := hpt (assayPlate.name) 14 6
      simp only [atWell]
      rw [this]
      norm_num [L0, key, resPlate, assayPlate] <;> decide
    · have := hpt (assayPlate.name) 13 6
      simp only [atWell]
      rw [this]
      norm_num [L0, key, resPlate, assayPlate] <;> decide

theorem chunkList_nil {α : Type} (k : Nat) : chunkList (α := α) k [] = [] := by
  rw [chunkList]

theorem chunkList_cons {α : Type} (k : Nat) (hk : k ≠ 0) (a : α) (l : List α) :
    chunkList k (a :: l) = (a :: l).take k :: chunkList k ((a :: l).drop k) := by
  rw [chunkList]
  simp [hk]

theorem chunkList_join {α : Type} (k : Nat) (hk : k ≠ 0) (l : List α) :
    (chunkList k l).flatten = l := by
  have H : ∀ (n : Nat) (l : List α), l.length ≤ n → (chunkList k l).flatten = l := by
    intro n
    induction n with
    | zero =>
      intro l hl
      have hnil : l = [] := List.eq_nil_of_length_eq_zero (Nat.le_zero.mp hl)
      subst hnil
      rw [chunkList_nil]
      rfl
    | succ n ih =>
      intro l hl
      cases l with
      | nil => rw [chunkList_nil]; rfl
      | cons a t =>
        rw [chunkList_cons k hk]
        have hlen : ((a :: t).drop k).length ≤ n := by
          simp only [List.length_drop, List.length_cons]
          simp only [List.length_cons] at hl
          omega
        rw [List.flatten_cons, ih _ hlen, List.take_append_drop]
  exact H l.length l le_rfl

theorem chunkList_mem_length {α : Type} (k : Nat) (hk : k ≠ 0) (l : List α)
    (b : List α) (hb : b ∈ chunkList k l) : b.length ≤ k := by
  have H : ∀ (n : Nat) (l : List α), l.length ≤ n →
      ∀ b ∈ chunkList k l, b.length ≤ k := by
    intro n
    induction n with
    | zero =>
      intro l hl b hb2
      have hnil : l = [] := List.eq_nil_of_length_eq_zero (Nat.le_zero.mp hl)
      subst hnil
      rw [chunkList_nil] at hb2
      cases hb2
    | succ n ih =>
      intro l hl b hb2
      cases l with
      | nil => rw [chunkList_nil] at hb2; cases hb2
      | cons a t =>
        rw [chunkList_cons k hk] at hb2
        rcases List.mem_cons.mp hb2 with hb3 | hb3
        · subst hb3
          simpa using List.length_take_le k (a :: t)
        · have hlen : ((a :: t).drop k).length ≤ n := by
            simp only [List.length_drop, List.length_cons]
            simp only [List.length_cons] at hl
            omega
          exact ih _ hlen b hb3
  exact H l.length l le_rfl b hb

theorem distributeAux_nil {α : Type} (v maxVol : ℚ) (k : Nat) (cur : ℚ) :
    distributeAux (α := α) v maxVol k [] cur = [] := by
  rw [distributeAux]

theorem distributeAux_cons {α : Type} (v maxVol : ℚ) (k : Nat) (hk : k ≠ 0)
    (a : α) (rl : List α) (cur : ℚ) :
    distributeAux v maxVol k (a :: rl) cur =
      ((a :: rl).take k,
        v * ((a :: rl).take k).length + maxVol * carryover - cur) ::
        distributeAux v maxVol k ((a :: rl).drop k) (maxVol * carryover) := by
  rw [distributeAux]
  simp only [hk, if_false]
  have h2 : cur + (v * (((a :: rl).take k).length : ℚ) + maxVol * carryover - cur)
      - v * (((a :: rl).take k).length : ℚ) = maxVol * carryover := by ring
  rw [h2]

theorem distributeAux_eq {α : Type} (v maxVol : ℚ) (k : Nat) (hk : k ≠ 0) :
    ∀ (rl : List α) (cur : ℚ),
      distributeAux v maxVol k rl cur =
        match chunkList k rl with
        | [] => []
        | b :: bs => (b, v * b.length + maxVol * carryover - cur) ::
            bs.map (fun b2 => (b2, v * b2.length)) := by
  have H : ∀ (n : Nat) (rl : List α), rl.length ≤ n → ∀ (cur : ℚ),
      distributeAux v maxVol k rl cur =
        match chunkList k rl with
        | [] => []
        | b :: bs => (b, v * b.length + maxVol * carryover - cur) ::
            bs.map (fun b2 => (b2, v * b2.length)) := by
    intro n
    induction n with
    | zero =>
      intro rl hl cur
      have hnil : rl = [] := List.eq_nil_of_length_eq_zero (Nat.le_zero.mp hl)
      subst hnil
      rw [distributeAux_nil, chunkList_nil]
    | succ n ih =>
      intro rl hl cur
      cases rl with
      | nil => rw [distributeAux_nil, chunkList_nil]
      | cons a t =>
        have hlen : ((a :: t).drop k).length ≤ n := by
          simp only [List.length_drop, List.length_cons]
          simp only [List.length_cons] at hl
          omega
        rw [distributeAux_cons v maxVol k hk, chunkList_cons k hk,
          ih _ hlen (maxVol * carryover)]
        cases hdrop : chunkList k ((a :: t).drop k) with
        | nil => rfl
        | cons b bs =>
          have hb : v * (b.length : ℚ) + maxVol * carryover - maxVol * carryover =
              v * (b.length : ℚ) := by ring
          simp [hb]
  exact fun rl cur => H rl.length rl le_rfl cur

/-- Claim C3: the distribute strategy draws batches of at most
max_wells_per_aspirate destinations, computed as the floor of the pipette
capacity net of the 10 percent carryover divided by the transfer volume, and
recomputed under even splitting as the ceiling of total over the number of
transfer groups; batches partition the destinations, are consumed in reverse
input order, and each aspirate draws batch size times transfer volume plus the
carryover reserve minus the volume already in the tip.  For volume 20, pipette
capacity 300 and 18 destinations with even splitting, the limit is 13, the
even split is 9, and the run is exactly two batches of 9 drawing 210 then
180. -/
theorem distribute_batching_spec :
    (∀ (α : Type) (dests : List α) (v maxVol cur : ℚ) (k : Nat), k ≠ 0 →
      ((custom_transfer_distribute v maxVol k dests cur).map Prod.fst).flatten
          = dests.reverse ∧
      (∀ b ∈ (custom_transfer_distribute v maxVol k dests cur).map Prod.fst,
        b.length ≤ k) ∧
      (((custom_transfer_distribute v maxVol k dests cur).map Prod.fst).map
          List.length).sum = dests.length ∧
      (chunkList k dests.reverse = [] →
        custom_transfer_distribute v maxVol k dests cur = []) ∧
      (∀ b bs, chunkList k dests.reverse = b :: bs →
        custom_transfer_distribute v maxVol k dests cur =
          (b, v * b.length + maxVol * carryover - cur) ::
            bs.map (fun b2 => (b2, v * b2.length))))
    ∧ maxWellsPerAspirate 300 20 = 13
    ∧ numTransferGroups 18 (maxWellsPerAspirate 300 20) = 2
    ∧ evenSplitMax 18 (maxWellsPerAspirate 300 20) = 9
    ∧ custom_transfer_distribute 20 300 (evenSplitMax 18 (maxWellsPerAspirate 300 20))
        (List.range 18) 0 =
        [([17, 16, 15, 14, 13, 12, 11, 10, 9], 210),
         ([8, 7, 6, 5, 4, 3, 2, 1, 0], 180)] := by
  have hmax : maxWellsPerAspirate 300 20 = 13 := by
    have h : (⌊(300 : ℚ) * (1 - carryover) / 20⌋) = 13 := by
      rw [carryover]
      norm_num
    unfold maxWellsPerAspirate
    rw [h]
    rfl
  have hgrp : numTransferGroups 18 13 = 2 := by
    have h : (⌈((18 : Nat) : ℚ) / ((13 : Nat) : ℚ)⌉) = 2 := by
      push_cast
      rw [Int.ceil_eq_iff]
      constructor <;> norm_num
    unfold numTransferGroups
    rw [h]
    rfl
  have hsplit : evenSplitMax 18 13 = 9 := by
    have h : (⌈((18 : Nat) : ℚ) / ((numTransferGroups 18 13 : Nat) : ℚ)⌉) = 9 := by
      rw [hgrp]
      push_cast
      rw [Int.ceil_eq_iff]
      constructor <;> norm_num
    unfold evenSplitMax
    rw [h]
    rfl
  have hfst : ∀ (α : Type) (dests : List α) (v maxVol cur : ℚ) (k : Nat), k ≠ 0 →
      (custom_transfer_distribute v maxVol k dests cur).map Prod.fst =
        chunkList k dests.reverse := by
    intro α dests v maxVol cur k hk
    rw [custom_transfer_distribute, distributeAux_eq v maxVol k hk]
    cases chunkList k dests.reverse with
    | nil => rfl
    | cons b bs => simp [Function.comp_def]
  refine ⟨?_, hmax, by rw [hmax]; exact hgrp, by rw [hmax]; exact hsplit, ?_⟩
  · intro α dests v maxVol cur k hk
    refine ⟨?_, ?_, ?_, ?_, ?_⟩
    · rw [hfst α dests v maxVol cur k hk, chunkList_join k hk]
    · intro b hb
      rw [hfst α dests v maxVol cur k hk] at hb
      exact chunkList_mem_length k hk dests.reverse b hb
    · rw [hfst α dests v maxVol cur k hk]
      calc ((chunkList k dests.reverse).map List.length).sum
          = (chunkList k dests.reverse).flatten.length := (List.length_flatten _).symm
        _ = dests.reverse.length := by rw [chunkList_join k hk]
        _ = dests.length := List.length_reverse dests
    · intro h
      rw [custom_transfer_distribute, distributeAux_eq v maxVol k hk, h]
    · intro b bs h
      rw [custom_transfer_distribute, distributeAux_eq v maxVol k hk, h]
  · rw [hmax, hsplit]
    have hrev : (List.range 18).reverse =
        [17, 16, 15, 14, 13, 12, 11, 10, 9, 8, 7, 6, 5, 4, 3, 2, 1, 0] := by decide
    rw [custom_transfer_distribute, hrev]
    rw [distributeAux]
    norm_num [carryover]
    rw [distributeAux]
    norm_num [carryover]
    rw [distributeAux]

/-- Claim C3 witness: the general batching facts instantiated at the concrete
even-split run of the specification example: two batches of 9, drawing 210 and
then 180 microliters. -/
theorem distribute_batching_spec_witness :
    ((custom_transfer_distribute 20 300 9 (List.range 18) 0).map Prod.fst).flatten
        = (List.range 18).reverse ∧
    (∀ b ∈ (custom_transfer_distribute 20 300 9 (List.range 18) 0).map Prod.fst,
      b.length ≤ 9) ∧
    (((custom_transfer_distribute 20 300 9 (List.range 18) 0).map Prod.fst).map
        List.length).sum = (List.range 18).length ∧
    custom_transfer_distribute 20 300 9 (List.range 18) 0 =
      [([17, 16, 15, 14, 13, 12, 11, 10, 9], 210),
       ([8, 7, 6, 5, 4, 3, 2, 1, 0], 180)] := by
  obtain ⟨h1, h2, h3, hnil, hcons⟩ :=
    distribute_batching_spec.1 Nat (List.range 18) 20 300 0 9 (by decide)
  have hrev : (List.range 18).reverse =
      [17, 16, 15, 14, 13, 12, 11, 10, 9, 8, 7, 6, 5, 4, 3, 2, 1, 0] := by decide
  have hch : chunkList 9 (List.range 18).reverse =
      [[17, 16, 15, 14, 13, 12, 11, 10, 9], [8, 7, 6, 5, 4, 3, 2, 1, 0]] := by
    rw [hrev, chunkList_cons 9 (by decide)]
    norm_num
    rw [chunkList_cons 9 (by decide)]
    norm_num
    rw [chunkList_nil]
  refine ⟨h1, h2, h3, ?_⟩
  rw [hcons _ _ hch]
  norm_num [carryover]

/-- Ledger effect of the adjacent-pair transfer loop of serial_dilution:
each key gains the transfer volume once per occurrence as a pair destination
(the tail of the well list) and loses it once per occurrence as a pair source
(the list without its last element). -/
theorem serial_fold_spec (v : ℚ) :
    ∀ (wells : List WellRef) (L : Ledger),
      (∀ w ∈ wells.tail, isTrash w = false) →
      ∃ L1, (serialPairs wells).foldlM
          (fun acc sd => adjust_well_volume acc v sd.1 sd.2 1) L = Except.ok L1 ∧
        ∀ p r c, L1 p r c = L p r c
          + v * (((wells.tail.map key).count (p, r, c) : ℚ))
          - v * (((wells.dropLast.map key).count (p, r, c) : ℚ)) := by
  intro wells
  induction wells with
  | nil =>
    intro L _
    exact ⟨L, rfl, by intro p r c; simp⟩
  | cons a rest ih =>
    intro L h
    cases rest with
    | nil =>
      exact ⟨L, rfl, by intro p r c; simp⟩
    | cons b l =>
      have hb : isTrash b = false := h b (by simp)
      obtain ⟨L2, hok2, hpt2⟩ := ih (fun p r c =>
          L p r c + (if isTrash b = false ∧ (p, r, c) = key b then v else 0)
                  - (if (p, r, c) = key a then v else 0))
        (fun w hw => h w (List.mem_cons_of_mem b hw))
      refine ⟨L2, ?_, ?_⟩
      · show List.foldlM _ L (serialPairs (a :: b :: l)) = _
        rw [show serialPairs (a :: b :: l) = (a, b) :: serialPairs (b :: l) from rfl,
          List.foldlM_cons, adjust_one_eq L v a b]
        exact hok2
      · intro p r c
        rw [hpt2 p r c]
        simp only [List.tail_cons, hb, eq_self_iff_true, true_and,
          List.dropLast_cons₂, List.map_cons, List.count_cons, beq_iff_eq]
        push_cast
        have hflip : ∀ (x y : String × Nat × Nat),
            ((if x = y then (1 : ℚ) else 0)) = (if y = x then 1 else 0) := by
          intro x y
          by_cases hxy : x = y
          · simp [hxy]
          · rw [if_neg hxy, if_neg (fun hh => hxy hh.symm)]
        rw [hflip (key b) (p, r, c), hflip (key a) (p, r, c)]
        split_ifs <;> ring1

/-- Claim C6: a serial dilution over at least two wells with single-channel
pipetting nets, on the ledger, a decrement of exactly the transfer volume on
the first well and no change anywhere else: each later well receives the
volume from its predecessor and gives it up again (the last one to the trash
discard), and the mix cycles (mix_before included) issue no ledger
adjustment.  Stated pointwise: the resulting ledger differs from the initial
one only at the key of the first well, by minus the transfer volume. -/
theorem serial_dilution_ledger_net (L : Ledger) (v : ℚ) (w0 : WellRef)
    (rest : List WellRef) (trash : WellRef) (mixBefore : Bool)
    (hlen : rest ≠ [])
    (hnt : ∀ w ∈ w0 :: rest, isTrash w = false)
    (htrash : isTrash trash = true) :
    ∃ L2, serial_dilution L v (w0 :: rest) 1 trash mixBefore = Except.ok L2 ∧
      ∀ p r c, L2 p r c = L p r c - (if (p, r, c) = key w0 then v else 0) := by
  obtain ⟨L1, hok1, hpt1⟩ := serial_fold_spec v (w0 :: rest) L
    (by
      intro w hw
      exact hnt w (List.mem_cons_of_mem w0 (by simpa using hw)))
  have hne : (w0 :: rest) ≠ [] := by simp
  have hlen2 : 2 ≤ (w0 :: rest).length := by
    cases rest with
    | nil => exact absurd rfl hlen
    | cons x xs => simp only [List.length_cons]; omega
  have hlast : (w0 :: rest).getLast? = some ((w0 :: rest).getLast hne) :=
    List.getLast?_eq_getLast _ hne
  have h2 := adjust_one_eq L1 v ((w0 :: rest).getLast hne) trash
  refine ⟨fun p r c =>
      (L1 p r c
        + if isTrash trash = false ∧ (p, r, c) = key trash then v else 0)
        - (if (p, r, c) = key ((w0 :: rest).getLast hne) then v else 0), ?_, ?_⟩
  · unfold serial_dilution
    rw [hok1]
    show (if 2 ≤ (w0 :: rest).length then
        match (w0 :: rest).getLast? with
        | some lastWell => adjust_well_volume L1 v lastWell trash 1
        | none => Except.error (Err.nameError varLoopIndex)
      else Except.error (Err.nameError varLoopIndex)) = _
    rw [if_pos hlen2, hlast]
    exact h2
  · intro p r c
    simp only [htrash, Bool.true_eq_false, false_and, if_false, add_zero]
    rw [hpt1 p r c]
    have e1 : (((w0 :: rest).map key).count (p, r, c)) =
        ((rest.map key).count (p, r, c)) + (if (p, r, c) = key w0 then 1 else 0) := by
      rw [List.map_cons, List.count_cons]
      by_cases hh : (p, r, c) = key w0
      · simp [hh]
      · simp [hh, Ne.symm hh]
    have e2 : (((w0 :: rest).map key).count (p, r, c)) =
        ((((w0 :: rest).dropLast).map key).count (p, r, c)) +
          (if (p, r, c) = key ((w0 :: rest).getLast hne) then 1 else 0) := by
      conv_lhs => rw [← List.dropLast_append_getLast hne]
      rw [List.map_append, List.count_append]
      congr 1
      rw [List.map_singleton]
      by_cases hh : (p, r, c) = key ((w0 :: rest).getLast hne)
      · simp [List.count_cons, hh]
      · simp [List.count_cons, hh, Ne.symm hh]
    have e1q := congrArg (fun n : Nat => (n : ℚ)) e1
    have e2q := congrArg (fun n : Nat => (n : ℚ)) e2
    push_cast at e1q e2q
    simp only [List.tail_cons]
    have hconv : ∀ (cnd : Prop) [Decidable cnd],
        ((if cnd then v else 0)) = v * (if cnd then (1 : ℚ) else 0) := by
      intro cnd _
      split_ifs <;> ring
    rw [hconv, hconv]
    linear_combination v * e2q - v * e1q

/-- Claim C6 witness: the standard-curve style example, five assay-plate wells
in one column with transfer volume 100; the first well nets minus 100, a
middle well and the last well net zero. -/
theorem serial_dilution_ledger_net_witness :
    ∃ L2, serial_dilution L0 100
        [⟨assayPlate, 1, 0⟩, ⟨assayPlate, 2, 0⟩, ⟨assayPlate, 3, 0⟩,
         ⟨assayPlate, 4, 0⟩, ⟨assayPlate, 5, 0⟩] 1 trashWell true = Except.ok L2 ∧
      atWell L2 ⟨assayPlate, 1, 0⟩ = -100 ∧
      atWell L2 ⟨assayPlate, 3, 0⟩ = 0 ∧
      atWell L2 ⟨assayPlate, 5, 0⟩ = 0 := by
  obtain ⟨L2, hok, hpt⟩ := serial_dilution_ledger_net L0 100 ⟨assayPlate, 1, 0⟩
    [⟨assayPlate, 2, 0⟩, ⟨assayPlate, 3, 0⟩, ⟨assayPlate, 4, 0⟩, ⟨assayPlate, 5, 0⟩]
    trashWell true (by decide) (by intro w hw; fin_cases hw <;> decide) (by decide)
  refine ⟨L2, hok, ?_, ?_, ?_⟩
  · have := hpt (assayPlate.name) 1 0
    simp only [atWell]
    rw [this]
    norm_num [L0, key]
  · have := hpt (assayPlate.name) 3 0
    simp only [atWell]
    rw [this]
    norm_num [L0, key]
  · have := hpt (assayPlate.name) 5 0
    simp only [atWell]
    rw [this]
    norm_num [L0, key]

/-- Claim C9 counterexample: with a single-element well list, serial_dilution
does not degenerate to the trailing-disposal step; it aborts with an
UnboundLocalError on the loop index i, so no ledger decrement and no tip drop
happen. -/
theorem serial_dilution_singleton_counterexample :
    serial_dilution L0 100 [⟨assayPlate, 1, 0⟩] 1 trashWell true =
      Except.error (Err.nameError varLoopIndex) := rfl

/-- Claim C9 amended: for every single-element well list the serial dilution
performs no ledger adjustment and fails with an unhandled UnboundLocalError on
the loop variable i, which the trailing-disposal step reads after the
zero-iteration transfer loop. -/
theorem serial_dilution_singleton_unbound_local (L : Ledger) (v : ℚ)
    (w trash : WellRef) (channels : Nat) (mixBefore : Bool) :
    serial_dilution L v [w] channels trash mixBefore =
      Except.error (Err.nameError varLoopIndex) := rfl

/-- Claim C4 counterexample: an 8-channel adjustment on a 12-row plate does
fail, but with an UnboundLocalError on the never-assigned local
source_well_list, not with a checked UnsupportedPlateGeometry error; no such
check exists in the source. -/
theorem adjust_unsupported_rows_counterexample :
    adjust_well_volume L0 5 ⟨plate12, 0, 0⟩ trashWell 8 =
      Except.error (Err.nameError varSourceWellList) ∧
    Err.nameError varSourceWellList ≠ Err.unsupportedPlateGeometry ∧
    adjust_well_volume L0 5 ⟨plate12, 0, 0⟩ trashWell 8 ≠
      Except.error Err.unsupportedPlateGeometry := by
  have hval : adjust_well_volume L0 5 ⟨plate12, 0, 0⟩ trashWell 8 =
      Except.error (Err.nameError varSourceWellList) := rfl
  refine ⟨hval, by decide, ?_⟩
  intro h
  rw [hval] at h
  injection h with h1
  exact absurd h1 (by decide)

/-- Claim C4 amended: for an 8-channel ledger adjustment, a plate whose row
count is not 1, 8 or 16 makes the operation fail, but with an unhandled
UnboundLocalError on the unassigned well-list local (source_well_list on the
source side; destination_well_list on the destination side of a non-trash
destination), not with a checked UnsupportedPlateGeometry error. -/
theorem adjust_unsupported_rows_unbound_local :
    (∀ (L : Ledger) (v : ℚ) (src dst : WellRef) (dopt : Option (ℚ × List (Nat × Nat))),
      src.plate.rows ≠ 1 → src.plate.rows ≠ 8 → src.plate.rows ≠ 16 →
      channelFanout8 (if isTrash dst then 0 else dst.plate.rows) dst.plate dst.row
        dst.col varDestinationRow = Except.ok dopt →
      adjust_well_volume L v src dst 8 = Except.error (Err.nameError varSourceWellList))
    ∧ (∀ (L : Ledger) (v : ℚ) (src dst : WellRef),
      src.plate.rows = 1 → isTrash dst = false →
      dst.plate.rows ≠ 1 → dst.plate.rows ≠ 8 → dst.plate.rows ≠ 16 →
      adjust_well_volume L v src dst 8 =
        Except.error (Err.nameError varDestinationWellList)) := by
  constructor
  · intro L v src dst dopt h1 h2 h3 hd
    have hs : channelFanout8 src.plate.rows src.plate src.row src.col varSourceRow =
        Except.ok none := by
      simp [channelFanout8, h1, h2, h3]
    unfold adjust_well_volume
    rw [if_neg (by norm_num), if_pos rfl, hs, hd]
  · intro L v src dst h1 htr hd1 hd2 hd3
    have hs : channelFanout8 src.plate.rows src.plate src.row src.col varSourceRow =
        Except.ok (some (8, [(src.row, src.col)])) := by
      simp [channelFanout8, h1]
    have hd : channelFanout8 (if isTrash dst then 0 else dst.plate.rows) dst.plate
        dst.row dst.col varDestinationRow = Except.ok none := by
      rw [htr]
      simp [channelFanout8, hd1, hd2, hd3]
    unfold adjust_well_volume
    rw [if_neg (by norm_num), if_pos rfl, hs, hd]
    rw [htr]
    rfl

/-- Claim C4 amended witness: the two scenarios at concrete plates. -/
theorem adjust_unsupported_rows_unbound_local_witness :
    adjust_well_volume L0 5 ⟨plate12, 0, 0⟩ trashWell 8 =
      Except.error (Err.nameError varSourceWellList) ∧
    adjust_well_volume L0 5 ⟨resPlate, 0, 0⟩ ⟨plate12, 0, 0⟩ 8 =
      Except.error (Err.nameError varDestinationWellList) := by
  constructor
  · exact adjust_unsupported_rows_unbound_local.1 L0 5 ⟨plate12, 0, 0⟩ trashWell none
      (by decide) (by decide) (by decide) rfl
  · exact adjust_unsupported_rows_unbound_local.2 L0 5 ⟨resPlate, 0, 0⟩ ⟨plate12, 0, 0⟩
      rfl (by decide) (by decide) (by decide) (by decide)

/-- Claim C5: misaligned multichannel starts.  On an 8-row plate a start row
other than A fails with the intended AssertionError (the
InvalidMultichannelAlignment of the taxonomy), on both sides.  On a 16-row
plate a start row other than A or B aborts instead with a NameError, because
the assert message interpolates the never-assigned variable source_row
(destination_row on the destination side); the alignment check itself is
present but its failure path raises the wrong exception, contradicting the
intent evident in the assert. -/
theorem adjust_misaligned_multichannel_errors :
    adjust_well_volume L0 5 ⟨deepPlate, 1, 0⟩ trashWell 8 =
      Except.error Err.invalidMultichannelAlignment ∧
    adjust_well_volume L0 5 ⟨resPlate, 0, 0⟩ ⟨deepPlate, 1, 0⟩ 8 =
      Except.error Err.invalidMultichannelAlignment ∧
    adjust_well_volume L0 5 ⟨assayPlate, 2, 0⟩ trashWell 8 =
      Except.error (Err.nameError varSourceRow) ∧
    adjust_well_volume L0 5 ⟨resPlate, 0, 0⟩ ⟨assayPlate, 2, 0⟩ 8 =
      Except.error (Err.nameError varDestinationRow) ∧
    Err.nameError varSourceRow ≠ Err.invalidMultichannelAlignment :=
  ⟨rfl, rfl, rfl, rfl, by decide⟩

/-- Claim C7: the edge-offset computation requires the height above bottom to
be below the well depth, failing with the InvalidGeometry assert otherwise;
for a profiled pipette it returns (width - (base + (depth - height) * slope))
divided by 2 plus the fixed clearance; and at the p20 profile on the assay
well geometry with height 2 it returns exactly the formula of the
specification. -/
theorem well_edge_offset_spec :
    (∀ (name : String) (well : WellGeom) (h : ℚ), well.depth ≤ h →
      get_well_edge_offset name well h = Except.error Err.invalidGeometry)
    ∧ (∀ (name : String) (well : WellGeom) (h base slope : ℚ),
        h < well.depth → tipDict name = some (base, slope) →
        get_well_edge_offset name well h =
          Except.ok ((well.width - (base + (well.depth - h) * slope)) / 2
            + EXTRA_OFFSET))
    ∧ get_well_edge_offset p20Name ⟨11.43, 3.6⟩ 2 =
        Except.ok ((3.6 - (0.9 + (11.43 - 2) * 0.083)) / 2 + 0.2) := by
  refine ⟨?_, ?_, ?_⟩
  · intro name well h hh
    unfold get_well_edge_offset
    rw [if_neg (not_lt.mpr (sub_nonpos.mpr hh))]
  · intro name well h base slope hh hdict
    unfold get_well_edge_offset
    rw [if_pos (sub_pos.mpr hh), hdict]
  · have hdict : tipDict p20Name = some (0.90, 0.083) := rfl
    unfold get_well_edge_offset
    rw [if_pos (by norm_num), hdict]
    exact congrArg Except.ok (by norm_num [EXTRA_OFFSET])

/-- Claim C7 witness: the profiled formula at the concrete p20 example and the
InvalidGeometry failure at an excessive height. -/
theorem well_edge_offset_spec_witness :
    get_well_edge_offset p20Name ⟨11.43, 3.6⟩ 2 =
      Except.ok ((3.6 - (0.90 + (11.43 - 2) * 0.083)) / 2 + EXTRA_OFFSET) ∧
    get_well_edge_offset p20Name ⟨11.43, 3.6⟩ 12 =
      Except.error Err.invalidGeometry := by
  constructor
  · exact well_edge_offset_spec.2.1 p20Name ⟨11.43, 3.6⟩ 2 0.90 0.083 (by norm_num) rfl
  · exact well_edge_offset_spec.1 p20Name ⟨11.43, 3.6⟩ 12 (by norm_num)

/-- Claim C8: motion trace of an offset dispense with blow-out on the p20
profile, direction right, dispense height 1, blow-out height 8.  After the
dispense the pipette moves back to the well center at the dispense height and
later returns to the center at the blow-out height, as claimed; but the
blow-out itself happens at the DISPENSE height with the lateral offset: the
move before the blow-out passes z equal to dispense_height, although the
comments in the source describe the blow-out as happening at the blow-out
height, to which the pipette had just moved. -/
theorem offset_dispense_blowout_at_dispense_height :
    offset_dispense p20Name ⟨11.43, 3.6⟩ 20 dirRight none 1 true 8 false false =
      Except.ok
        [Action.moveTo 0 0 1 false,
         Action.moveTo ((3.6 - (0.9 + (11.43 - 1) * 0.083)) / 2 + 0.2) 0 1 true,
         Action.dispense 20 ((3.6 - (0.9 + (11.43 - 1) * 0.083)) / 2 + 0.2) 0 1,
         Action.moveTo 0 0 1 true,
         Action.moveTo 0 0 8 false,
         Action.moveTo ((3.6 - (0.9 + (11.43 - 1) * 0.083)) / 2 + 0.2) 0 1 true,
         Action.blowOut ((3.6 - (0.9 + (11.43 - 1) * 0.083)) / 2 + 0.2) 0 1,
         Action.moveTo 0 0 8 true] := by
  have hoff : get_well_edge_offset p20Name ⟨11.43, 3.6⟩ 1 =
      Except.ok ((3.6 - (0.9 + (11.43 - 1) * 0.083)) / 2 + 0.2) := by
    have hdict : tipDict p20Name = some (0.90, 0.083) := rfl
    unfold get_well_edge_offset
    rw [if_pos (by norm_num), hdict]
    exact congrArg Except.ok (by norm_num [EXTRA_OFFSET])
  unfold offset_dispense
  rw [hoff]
  norm_num [dirCenter, dirRight]
  rw [if_neg (by decide)]

/-- Claim C10: for a pipette model outside the two profiled ones, the
edge-offset computation neither returns a value nor raises a checked lookup
error: the KeyError is caught and printed, and the offset formula then raises
an unhandled UnboundLocalError on the never-assigned PIPETTE_TIP_WIDTH. -/
theorem well_edge_offset_unknown_pipette (name : String) (well : WellGeom) (h : ℚ)
    (h1 : name ≠ p20Name) (h2 : name ≠ p300Name) (hh : h < well.depth) :
    get_well_edge_offset name well h =
      Except.error (Err.nameError varPipetteTipWidth) := by
  have hd : tipDict name = none := by simp [tipDict, h1, h2]
  unfold get_well_edge_offset
  rw [if_pos (sub_pos.mpr hh), hd]

/-- Claim C10 witness: a p1000 pipette model with a valid height. -/
theorem well_edge_offset_unknown_pipette_witness :
    get_well_edge_offset p1000Name ⟨10, 4⟩ 2 =
      Except.error (Err.nameError varPipetteTipWidth) :=
  well_edge_offset_unknown_pipette p1000Name ⟨10, 4⟩ 2 (by decide) (by decide)
    (by norm_num)

end AdhE
